import Mathlib

/-!
Shallow embedding of the feed-forward inference path and training loop of
`src/models/simple_circuit_ai.py`, `src/train_simple.py` and `src/main.py`
from the `ai-circuit-designer-2026` repository.

Tensor entries are modelled as rationals; a one-dimensional tensor is a
`List ℚ` and a two-dimensional batch is a `List (List ℚ)` of rows.
Operations that raise at runtime on a shape mismatch (matrix product inside
`nn.Linear`, the mean-squared-error loss) are modelled with `Except String`.
-/

namespace CircuitAI

/-- A fully connected affine layer, embedding `torch.nn.Linear(inFeatures, outFeatures)`.
`weight` holds `outFeatures` rows of `inFeatures` entries each (torch stores the
weight as an `out × in` matrix); `bias` holds `outFeatures` entries. -/
structure Linear where
  inFeatures : ℕ
  outFeatures : ℕ
  weight : List (List ℚ)
  bias : List ℚ
deriving DecidableEq

/-- Dot product of two coordinate lists (the row–vector products inside the
matrix multiplication performed by `nn.Linear`). -/
def dot : List ℚ → List ℚ → ℚ
  | [], _ => 0
  | _ :: _, [] => 0
  | a :: as, b :: bs => a * b + dot as bs

/-- Error label for the shape error torch raises when the input width of a
matrix product does not match (`mat1 and mat2 shapes cannot be multiplied`). -/
def dimMismatchMsg : String := "mat1 and mat2 shapes cannot be multiplied"

/-- The affine map `W · x + b` computed by a linear layer on a well-shaped input. -/
def affineSpec (l : Linear) (x : List ℚ) : List ℚ :=
  List.zipWith (fun row b => dot row x + b) l.weight l.bias

/-- Applying `nn.Linear` to one feature vector: torch raises a shape error when
the vector width differs from `inFeatures`, and otherwise returns `W · x + b`. -/
def Linear.apply (l : Linear) (x : List ℚ) : Except String (List ℚ) :=
  if x.length = l.inFeatures then
    Except.ok (affineSpec l x)
  else
    Except.error dimMismatchMsg

/-- Well-formedness of a layer: the stored weight matrix and bias vector have
the shapes `(outFeatures, inFeatures)` and `(outFeatures)` that
`nn.Linear(inFeatures, outFeatures)` allocates. -/
def Linear.WF (l : Linear) : Prop :=
  l.weight.length = l.outFeatures ∧ (∀ row ∈ l.weight, row.length = l.inFeatures) ∧
    l.bias.length = l.outFeatures

instance (l : Linear) : Decidable l.WF := by
  unfold Linear.WF; infer_instance

/-- Elementwise `torch.relu`: each entry is replaced by `max entry 0`. -/
def relu (v : List ℚ) : List ℚ := v.map (fun a => max a 0)

/-- The network of `SimpleCircuitAI.__init__`: three linear layers. -/
structure SimpleCircuitAI where
  layer1 : Linear
  layer2 : Linear
  layer3 : Linear
deriving DecidableEq

/-- `SimpleCircuitAI.__init__`: `layer1 = nn.Linear(5, 10)`, `layer2 = nn.Linear(10, 10)`,
`layer3 = nn.Linear(10, 5)`; the randomly initialised weights and biases of the
source are passed explicitly. -/
def SimpleCircuitAI.init (w1 : List (List ℚ)) (b1 : List ℚ) (w2 : List (List ℚ))
    (b2 : List ℚ) (w3 : List (List ℚ)) (b3 : List ℚ) : SimpleCircuitAI :=
  { layer1 := ⟨5, 10, w1, b1⟩, layer2 := ⟨10, 10, w2, b2⟩, layer3 := ⟨10, 5, w3, b3⟩ }

/-- Well-formedness of the model: each layer is well-formed and the layer sizes
are the ones fixed by `SimpleCircuitAI.__init__` (5 → 10 → 10 → 5). -/
def SimpleCircuitAI.WF (m : SimpleCircuitAI) : Prop :=
  m.layer1.WF ∧ m.layer2.WF ∧ m.layer3.WF ∧
    m.layer1.inFeatures = 5 ∧ m.layer1.outFeatures = 10 ∧
    m.layer2.inFeatures = 10 ∧ m.layer2.outFeatures = 10 ∧
    m.layer3.inFeatures = 10 ∧ m.layer3.outFeatures = 5

instance (m : SimpleCircuitAI) : Decidable m.WF := by
  unfold SimpleCircuitAI.WF; infer_instance

/-- Line 12 of `simple_circuit_ai.py`: `x = torch.relu(self.layer1(x))`. -/
def hidden1 (m : SimpleCircuitAI) (x : List ℚ) : Except String (List ℚ) := do
  let y ← m.layer1.apply x
  return relu y

/-- Line 13 of `simple_circuit_ai.py`: `x = torch.relu(self.layer2(x))`. -/
def hidden2 (m : SimpleCircuitAI) (x : List ℚ) : Except String (List ℚ) := do
  let h1 ← hidden1 m x
  let y ← m.layer2.apply h1
  return relu y

/-- `SimpleCircuitAI.forward` on one feature vector: two rectified hidden
layers followed by `self.layer3` with no nonlinearity (lines 12–15). -/
def forward (m : SimpleCircuitAI) (x : List ℚ) : Except String (List ℚ) := do
  let h2 ← hidden2 m x
  m.layer3.apply h2

/-- `SimpleCircuitAI.forward` on a two-dimensional batch: torch applies the
layers row-wise, raising on the first shape mismatch. -/
def forwardBatch (m : SimpleCircuitAI) : List (List ℚ) → Except String (List (List ℚ))
  | [] => Except.ok []
  | x :: xs => do
    let y ← forward m x
    let ys ← forwardBatch m xs
    return y :: ys

/-- A call of `forward` viewed as an operation on the process state: the method
only reads `self.layer1`, `self.layer2`, `self.layer3` and writes nothing, so
the call returns the parameters unchanged alongside the computed output. -/
def forwardCall (m : SimpleCircuitAI) (x : List ℚ) :
    SimpleCircuitAI × Except String (List ℚ) :=
  (m, forward m x)

/-- Error label for the shape error torch raises when two tensors of a
pointwise operation cannot be broadcast together. -/
def mseShapeErrMsg : String :=
  "The size of tensor a must match the size of tensor b at non-singleton dimension"

/-- `nn.MSELoss()` on two-dimensional batches: the mean of the squared
entrywise differences. Torch additionally accepts shapes that differ only in
dimensions of size 1 (broadcasting); no tensor pair this repository feeds to
the loss has a dimension of size 1, so the embedding requires the shapes to be
equal and raises the broadcast shape error otherwise. -/
def mseLoss (pred target : List (List ℚ)) : Except String ℚ :=
  if pred.length = target.length ∧
      ∀ p ∈ List.zip pred target, p.1.length = p.2.length then
    let diffs := List.zipWith (fun p t => List.zipWith (fun a b => (a - b) ^ 2) p t) pred target
    Except.ok ((diffs.map List.sum).sum / ((diffs.map List.length).sum : ℚ))
  else
    Except.error mseShapeErrMsg

/-- The loop of `train_simple.py` (lines 20–28): for each of `n` steps, compute
`predictions = ai(inputs)`, `loss = loss_fn(predictions, targets)`, then
`loss.backward(); optimizer.step()`. The Adam update is abstracted as `upd`,
threading an arbitrary optimiser state `s` (moment estimates) and receiving the
model and the loss; every theorem below holds for every such `upd`, and in this
script the loss computation raises before any update runs. -/
def trainLoop {σ : Type} (upd : σ → SimpleCircuitAI → ℚ → σ × SimpleCircuitAI) :
    σ → SimpleCircuitAI → List (List ℚ) → List (List ℚ) → ℕ →
      Except String SimpleCircuitAI
  | _, m, _, _, 0 => Except.ok m
  | s, m, inputs, targets, n + 1 => do
    let preds ← forwardBatch m inputs
    let loss ← mseLoss preds targets
    let (s2, m2) := upd s m loss
    trainLoop upd s2 m2 inputs targets n

/-- An optimiser update that leaves the model unchanged, used to evaluate the
training script at concrete inputs. -/
def noUpd : Unit → SimpleCircuitAI → ℚ → Unit × SimpleCircuitAI :=
  fun s m _ => (s, m)

/-- A matrix of zeros with `r` rows and `c` columns. -/
def zeroMat (r c : ℕ) : List (List ℚ) := List.replicate r (List.replicate c 0)

/-- A concrete well-formed parameter assignment (all weights and biases zero),
standing in for one fixed random initialisation. -/
def zeroModel : SimpleCircuitAI :=
  SimpleCircuitAI.init (zeroMat 10 5) (List.replicate 10 0) (zeroMat 10 10)
    (List.replicate 10 0) (zeroMat 5 10) (List.replicate 5 0)

/-- The example input of `main.py`:
`[Voltage, Resistance, Capacitance, Frequency, Current] = [5.0, 1000.0, 0.0001, 1000.0, 0.01]`. -/
def exampleCircuit : List ℚ := [5, 1000, 1 / 10000, 1000, 1 / 100]

/-- Whether an `Except` computation returned normally. -/
def isOkE {α : Type} : Except String α → Bool
  | Except.ok _ => true
  | Except.error _ => false

/-- The rectified-linear activation as the spec words it: zero negative values,
pass through non-negative values unchanged. -/
def reluSpec (v : List ℚ) : List ℚ := v.map (fun a => if a < 0 then 0 else a)

/-- The value of the network on a well-shaped input, as the composition the
spec describes: affine, rectify, affine, rectify, affine. -/
def netFun (m : SimpleCircuitAI) (x : List ℚ) : List ℚ :=
  affineSpec m.layer3 (reluSpec (affineSpec m.layer2 (reluSpec (affineSpec m.layer1 x))))

/-! Helper lemmas about the embedded operations. -/

theorem ok_bind {α β : Type} (a : α) (f : α → Except String β) :
    (Except.ok a : Except String α) >>= f = f a := rfl

theorem bind_eq_ok {α β : Type} {e : Except String α} {f : α → Except String β} {v : β}
    (h : e >>= f = Except.ok v) : ∃ a, e = Except.ok a ∧ f a = Except.ok v := by
  cases e with
  | ok a => exact ⟨a, rfl, h⟩
  | error msg => exact Except.noConfusion h

theorem relu_length (v : List ℚ) : (relu v).length = v.length := by
  simp [relu]

theorem max_zero_eq_ite (a : ℚ) : max a 0 = if a < 0 then 0 else a := by
  rcases lt_or_le a 0 with h | h
  · simp [h, max_eq_right h.le]
  · simp [not_lt.2 h, max_eq_left h]

theorem relu_eq_reluSpec (v : List ℚ) : relu v = reluSpec v := by
  simp [relu, reluSpec, max_zero_eq_ite]

theorem relu_mem_nonneg (v : List ℚ) (a : ℚ) (ha : a ∈ relu v) : 0 ≤ a := by
  obtain ⟨b, _, rfl⟩ := List.mem_map.1 ha
  exact le_max_right b 0

theorem affineSpec_length (l : Linear) (x : List ℚ) (hw : l.weight.length = l.outFeatures)
    (hb : l.bias.length = l.outFeatures) : (affineSpec l x).length = l.outFeatures := by
  simp [affineSpec, hw, hb]

theorem Linear.apply_of_len (l : Linear) (x : List ℚ) (h : x.length = l.inFeatures) :
    l.apply x = Except.ok (affineSpec l x) := by
  simp [Linear.apply, h]

theorem Linear.apply_of_mismatch (l : Linear) (x : List ℚ) (h : x.length ≠ l.inFeatures) :
    l.apply x = Except.error dimMismatchMsg := by
  simp [Linear.apply, h]

theorem hidden1_ok (m : SimpleCircuitAI) (hm : m.WF) (x : List ℚ) (hx : x.length = 5) :
    hidden1 m x = Except.ok (reluSpec (affineSpec m.layer1 x)) := by
  have hi1 : m.layer1.inFeatures = 5 := hm.2.2.2.1
  rw [hidden1, Linear.apply_of_len m.layer1 x (by rw [hx, hi1])]
  show Except.ok (relu (affineSpec m.layer1 x)) = _
  rw [relu_eq_reluSpec]

theorem hidden2_ok (m : SimpleCircuitAI) (hm : m.WF) (x : List ℚ) (hx : x.length = 5) :
    hidden2 m x =
      Except.ok (reluSpec (affineSpec m.layer2 (reluSpec (affineSpec m.layer1 x)))) := by
  have hlen : (reluSpec (affineSpec m.layer1 x)).length = m.layer2.inFeatures := by
    rw [← relu_eq_reluSpec, relu_length,
      affineSpec_length m.layer1 x hm.1.1 hm.1.2.2, hm.2.2.2.2.1, hm.2.2.2.2.2.1]
  rw [hidden2, hidden1_ok m hm x hx]
  show (m.layer2.apply (reluSpec (affineSpec m.layer1 x))).bind _ = _
  rw [Linear.apply_of_len m.layer2 _ hlen]
  show Except.ok (relu (affineSpec m.layer2 (reluSpec (affineSpec m.layer1 x)))) = _
  rw [relu_eq_reluSpec]

theorem forward_ok (m : SimpleCircuitAI) (hm : m.WF) (x : List ℚ) (hx : x.length = 5) :
    forward m x = Except.ok (netFun m x) := by
  have hlen : (reluSpec (affineSpec m.layer2 (reluSpec (affineSpec m.layer1 x)))).length =
      m.layer3.inFeatures := by
    rw [← relu_eq_reluSpec, relu_length,
      affineSpec_length m.layer2 _ hm.2.1.1 hm.2.1.2.2, hm.2.2.2.2.2.2.1,
      hm.2.2.2.2.2.2.2.1]
  rw [forward, hidden2_ok m hm x hx]
  show m.layer3.apply _ = _
  rw [Linear.apply_of_len m.layer3 _ hlen, netFun]

theorem netFun_length (m : SimpleCircuitAI) (hm : m.WF) (x : List ℚ) :
    (netFun m x).length = 5 := by
  rw [netFun, affineSpec_length m.layer3 _ hm.2.2.1.1 hm.2.2.1.2.2, hm.2.2.2.2.2.2.2.2]

theorem forwardBatch_ok (m : SimpleCircuitAI) (hm : m.WF) (xs : List (List ℚ))
    (hxs : ∀ r ∈ xs, r.length = 5) :
    forwardBatch m xs = Except.ok (xs.map (netFun m)) := by
  induction xs with
  | nil => rfl
  | cons x xs ih =>
    rw [forwardBatch, forward_ok m hm x (hxs x (List.mem_cons_self x xs))]
    show (forwardBatch m xs).bind _ = _
    rw [ih (fun r hr => hxs r (List.mem_cons_of_mem x hr))]
    rfl

/-! Claim theorems. -/

/-- C1: for every well-shaped input, `forward` computes exactly the composition
affine (5→10), rectified-linear, affine (10→10), rectified-linear, then a final
affine (10→5) with no nonlinearity applied to its result. -/
theorem forward_is_composition (m : SimpleCircuitAI) (hm : m.WF) (x : List ℚ)
    (hx : x.length = 5) :
    forward m x = Except.ok
      (affineSpec m.layer3
        (reluSpec (affineSpec m.layer2 (reluSpec (affineSpec m.layer1 x))))) :=
  forward_ok m hm x hx

/-- Witness for C1 at a concrete parameter assignment and input. -/
theorem forward_is_composition_witness :
    forward zeroModel [1, 2, 3, 4, 5] = Except.ok
      (affineSpec zeroModel.layer3
        (reluSpec (affineSpec zeroModel.layer2
          (reluSpec (affineSpec zeroModel.layer1 [1, 2, 3, 4, 5]))))) :=
  forward_is_composition zeroModel (by decide) [1, 2, 3, 4, 5] (by decide)

/-- C2 (code evaluated at the failing shapes): with the training script's data
— inputs of shape (10, 5) and targets of shape (10, 3) — the first loss
computation of the 20-step loop raises the broadcast shape error, so the loop
never completes a step, never updates a parameter and never reports a loss. -/
theorem trainLoop_script_shape_error :
    trainLoop noUpd () zeroModel (zeroMat 10 5) (zeroMat 10 3) 20 =
      Except.error mseShapeErrMsg := by
  rfl

/-- C3: for every batch of N width-5 feature vectors, N ≥ 0, inference returns
a batch of N output vectors, each of the configured output width 5. -/
theorem forwardBatch_shape (m : SimpleCircuitAI) (hm : m.WF) (xs : List (List ℚ))
    (hxs : ∀ r ∈ xs, r.length = 5) :
    ∃ ys, forwardBatch m xs = Except.ok ys ∧ ys.length = xs.length ∧
      ∀ y ∈ ys, y.length = 5 := by
  refine ⟨xs.map (netFun m), forwardBatch_ok m hm xs hxs, by simp, ?_⟩
  intro y hy
  obtain ⟨r, _, rfl⟩ := List.mem_map.1 hy
  exact netFun_length m hm r

/-- Witness for C3 at a concrete parameter assignment and batch. -/
theorem forwardBatch_shape_witness :
    isOkE (forwardBatch zeroModel (List.replicate 3 [1, 2, 3, 4, 5])) = true := by
  obtain ⟨ys, hys, -, -⟩ :=
    forwardBatch_shape zeroModel (by decide) (List.replicate 3 [1, 2, 3, 4, 5]) (by decide)
  rw [hys]
  rfl

/-- C4: inference is deterministic — two calls of `forward` with the same
parameter setting and the same input yield identical output. -/
theorem forward_deterministic (m1 m2 : SimpleCircuitAI) (x1 x2 : List ℚ)
    (hm : m1 = m2) (hx : x1 = x2) : forward m1 x1 = forward m2 x2 := by
  rw [hm, hx]

/-- Witness for C4 at a concrete parameter assignment and input. -/
theorem forward_deterministic_witness :
    forward zeroModel exampleCircuit = forward zeroModel exampleCircuit :=
  forward_deterministic zeroModel zeroModel exampleCircuit exampleCircuit rfl rfl

/-- C5: every component of either hidden-layer intermediate value (the results
of the two rectified-linear activations) is non-negative. -/
theorem hidden_nonneg (m : SimpleCircuitAI) (x v : List ℚ) (a : ℚ)
    (hv : hidden1 m x = Except.ok v ∨ hidden2 m x = Except.ok v) (ha : a ∈ v) :
    0 ≤ a := by
  rcases hv with h | h
  · rw [hidden1] at h
    obtain ⟨y, -, hy⟩ := bind_eq_ok h
    have hv' : relu y = v := Except.ok.inj hy
    exact relu_mem_nonneg y a (by rw [hv']; exact ha)
  · rw [hidden2] at h
    obtain ⟨w, -, h'⟩ := bind_eq_ok h
    obtain ⟨y, -, hy⟩ := bind_eq_ok h'
    have hv' : relu y = v := Except.ok.inj hy
    exact relu_mem_nonneg y a (by rw [hv']; exact ha)

/-- Witness for C5: the first hidden layer at a concrete parameter assignment
and input, with a concrete component. -/
theorem hidden_nonneg_witness :
    hidden1 zeroModel exampleCircuit = Except.ok (List.replicate 10 0) ∧ (0 : ℚ) ≤ 0 :=
  ⟨by simp [hidden1, ok_bind, Linear.apply, zeroModel, SimpleCircuitAI.init, zeroMat,
      affineSpec, dot, relu, exampleCircuit, List.replicate],
    hidden_nonneg zeroModel exampleCircuit (List.replicate 10 0) 0
    (Or.inl (by simp [hidden1, ok_bind, Linear.apply, zeroModel, SimpleCircuitAI.init,
      zeroMat, affineSpec, dot, relu, exampleCircuit, List.replicate])) (by decide)⟩

/-- C6: an input whose feature width differs from 5 makes inference fail
immediately with the dimension-mismatch error, and this is the only structural
error of the inference path — a width-5 input always returns normally. -/
theorem forward_dim_mismatch (m : SimpleCircuitAI) (hm : m.WF) (x : List ℚ) :
    (x.length ≠ 5 → forward m x = Except.error dimMismatchMsg) ∧
      (x.length = 5 → ∃ y, forward m x = Except.ok y) := by
  constructor
  · intro hx
    have h1 : m.layer1.apply x = Except.error dimMismatchMsg :=
      Linear.apply_of_mismatch m.layer1 x (by rw [hm.2.2.2.1]; exact hx)
    simp only [forward, hidden2, hidden1, h1]
    rfl
  · intro hx
    exact ⟨netFun m x, forward_ok m hm x hx⟩

/-- Witness for C6 at a concrete parameter assignment and a width-3 input. -/
theorem forward_dim_mismatch_witness :
    forward zeroModel [1, 2, 3] = Except.error dimMismatchMsg :=
  (forward_dim_mismatch zeroModel (by decide) [1, 2, 3]).1 (by decide)

/-- C7: inference has no side effects — after a call of `forward` all three
layers' parameters are unchanged, and the call's result is the pure value of
`forward` on the parameters it was given. -/
theorem forwardCall_frame (m : SimpleCircuitAI) (x : List ℚ) :
    (forwardCall m x).1 = m ∧ (forwardCall m x).1.layer1 = m.layer1 ∧
      (forwardCall m x).1.layer2 = m.layer2 ∧ (forwardCall m x).1.layer3 = m.layer3 ∧
      (forwardCall m x).2 = forward m x :=
  ⟨rfl, rfl, rfl, rfl, rfl⟩

/-- C8 counterexample: at the concrete parameter assignment `zeroModel`, the
example input `[5.0, 1000.0, 0.0001, 1000.0, 0.01]` produces the 5-vector
`[0, 0, 0, 0, 0]`, whose length is not 3 — the output is not a 3-vector. -/
theorem design_output_not_three :
    forward zeroModel exampleCircuit = Except.ok (List.replicate 5 0) ∧
      (List.replicate 5 (0 : ℚ)).length ≠ 3 :=
  ⟨by simp [forward, hidden2, hidden1, ok_bind, Linear.apply, zeroModel,
      SimpleCircuitAI.init, zeroMat, affineSpec, dot, relu, exampleCircuit, List.replicate],
    by decide⟩

/-- C8 amended: feeding `[5.0, 1000.0, 0.0001, 1000.0, 0.01]` through a network
with fixed parameters produces a deterministic 5-vector output — the value of
`netFun` at those parameters, of which the script displays the first three
components. -/
theorem design_output_len5 (m : SimpleCircuitAI) (hm : m.WF) :
    forward m exampleCircuit = Except.ok (netFun m exampleCircuit) ∧
      (netFun m exampleCircuit).length = 5 :=
  ⟨forward_ok m hm exampleCircuit (by decide), netFun_length m hm exampleCircuit⟩

/-- Witness for C8's amended claim at a concrete parameter assignment. -/
theorem design_output_len5_witness :
    forward zeroModel exampleCircuit = Except.ok (netFun zeroModel exampleCircuit) ∧
      (netFun zeroModel exampleCircuit).length = 5 :=
  design_output_len5 zeroModel (by decide)

/-- C9: in the training script the targets are width 3 while the network
output is width 5, so for every well-formed parameter assignment, every
optimiser state and every optimiser update function, the 20-step loop raises
the broadcast shape error in its first loss computation — no parameter update
is ever applied and no loss is ever produced. -/
theorem trainLoop_never_updates {σ : Type}
    (upd : σ → SimpleCircuitAI → ℚ → σ × SimpleCircuitAI) (s : σ)
    (m : SimpleCircuitAI) (hm : m.WF) (inputs targets : List (List ℚ))
    (hin : inputs.length = 10) (hinw : ∀ r ∈ inputs, r.length = 5)
    (htg : targets.length = 10) (htgw : ∀ r ∈ targets, r.length = 3) :
    trainLoop upd s m inputs targets 20 = Except.error mseShapeErrMsg := by
  obtain ⟨i0, irest, rfl⟩ : ∃ a l, inputs = a :: l := by
    cases inputs with
    | nil => exact absurd hin (by decide)
    | cons a l => exact ⟨a, l, rfl⟩
  obtain ⟨t0, trest, rfl⟩ : ∃ a l, targets = a :: l := by
    cases targets with
    | nil => exact absurd htg (by decide)
    | cons a l => exact ⟨a, l, rfl⟩
  have hcond : ¬((((i0 :: irest).map (netFun m)).length = (t0 :: trest).length) ∧
      ∀ p ∈ List.zip ((i0 :: irest).map (netFun m)) (t0 :: trest),
        p.1.length = p.2.length) := by
    rintro ⟨-, hall⟩
    have h0 := hall (netFun m i0, t0) (by simp)
    rw [netFun_length m hm i0, htgw t0 (List.mem_cons_self t0 trest)] at h0
    exact absurd h0 (by decide)
  rw [show (20 : ℕ) = 19 + 1 from rfl]
  show ((forwardBatch m (i0 :: irest)).bind fun preds =>
    (mseLoss preds (t0 :: trest)).bind fun loss =>
      match upd s m loss with
      | (s2, m2) => trainLoop upd s2 m2 (i0 :: irest) (t0 :: trest) 19) = _
  rw [forwardBatch_ok m hm (i0 :: irest) hinw]
  show (mseLoss ((i0 :: irest).map (netFun m)) (t0 :: trest)).bind _ = _
  rw [mseLoss, if_neg hcond]
  rfl

/-- Witness for C9 at concrete parameters, optimiser and data. -/
theorem trainLoop_never_updates_witness :
    trainLoop noUpd () zeroModel (List.replicate 10 [1, 2, 3, 4, 5])
      (List.replicate 10 [1, 2, 3]) 20 = Except.error mseShapeErrMsg :=
  trainLoop_never_updates noUpd () zeroModel (by decide)
    (List.replicate 10 [1, 2, 3, 4, 5]) (List.replicate 10 [1, 2, 3])
    (by decide) (by decide) (by decide) (by decide)

/-- C10: inference is total on well-shaped input — for every batch of width-5
rows, N ≥ 0, `forwardBatch` returns a value and raises no error. -/
theorem forward_total (m : SimpleCircuitAI) (hm : m.WF) (xs : List (List ℚ))
    (hxs : ∀ r ∈ xs, r.length = 5) :
    ∃ ys, forwardBatch m xs = Except.ok ys :=
  ⟨xs.map (netFun m), forwardBatch_ok m hm xs hxs⟩

/-- Witness for C10 on a concrete batch of seven well-shaped rows. -/
theorem forward_total_witness :
    isOkE (forwardBatch zeroModel (List.replicate 7 [1, 2, 3, 4, 5])) = true := by
  obtain ⟨ys, hys⟩ :=
    forward_total zeroModel (by decide) (List.replicate 7 [1, 2, 3, 4, 5]) (by decide)
  rw [hys]
  rfl

end CircuitAI
